import Mathlib

/-!
Verification development for the paint-engine core of the repository
(`src/main.rs`): an RGBA pixel canvas, a square/circle brush stamping
routine (`draw_on_canvas`), and the tool/color/input state (`AppState`).

Machine integers are embedded as `Nat`/`Int` with explicit reduction
modulo `2^32` wherever the Rust `i32`/`u32` arithmetic can wrap
(release-mode wrapping semantics); casts `as u32` / `as i32` are
embedded explicitly.  All definitions are translated from the source;
the only pixel operations delegated to the `image` crate
(`RgbaImage::from_pixel` + `imageops::replace`) are embedded by their
documented semantics: a `bw × bh` one-color image copied onto the
canvas at an offset, clipped to the canvas bounds — including the
documented panic of `from_pixel` when the brush buffer length exceeds
the allocation limit (`squarePanics`, modeled by `drawSquareChecked`
and `draw_on_canvas_checked` returning `none`).
-/

/-- An RGBA pixel, each channel `0–255` (`image::Rgba([r,g,b,a])`). -/
abbrev Rgba := Nat × Nat × Nat × Nat

/-- The pixel canvas (`image::RgbaImage`): fixed dimensions and a
row-major buffer, embedded as a function from coordinates to pixels.
Entries at coordinates `≥ width`/`≥ height` are phantom values that no
source operation reads or writes. -/
structure Canvas where
  width : Nat
  height : Nat
  pix : Nat → Nat → Rgba

/-- `RgbaImage::new(w, h)` followed by setting every pixel to opaque
white, as `main` does at startup. -/
def whiteCanvas (w h : Nat) : Canvas :=
  { width := w, height := h, pix := fun _ _ => (255, 255, 255, 255) }

/-- `put_pixel` on the raw buffer: point update of the pixel function. -/
def putPix (f : Nat → Nat → Rgba) (x y : Nat) (col : Rgba) : Nat → Nat → Rgba :=
  fun i j => if i = x ∧ j = y then col else f i j

/-- Value of an `i32` expression: reduce into `[-2^31, 2^31)`
(two's-complement wrapping, Rust release semantics). -/
def wrap32 (x : Int) : Int :=
  (x + 2147483648) % 4294967296 - 2147483648

/-- The Rust cast `as u32` applied to an `i32` value. -/
def toU32 (x : Int) : Nat :=
  (x % 4294967296).toNat

/-- The Rust cast `as i32` applied to a `u32` value
(`state.brush_size as i32`). -/
def toI32 (n : Nat) : Int :=
  wrap32 n

/-- Wrapping `u32` subtraction (value of `a - b` on `u32` operands in
release mode), for `a, b < 2^32`. -/
def u32sub (a b : Nat) : Nat :=
  (a + 4294967296 - b) % 4294967296

/-- The Rust inclusive range `a..=b` over `i32` as a list. -/
def intRange (a b : Int) : List Int :=
  (List.range (b + 1 - a).toNat).map fun k : Nat => a + (k : Int)

/-- `enum Tool`. -/
inductive Tool
  | Brush
  | Eraser
deriving DecidableEq

/-- `enum BrushShape`. -/
inductive BrushShape
  | Square
  | Circle
deriving DecidableEq

/-- `struct AppState` (the `Arc<RwLock<_>>` around the image is
single-writer glue and is dropped; `Color` is its RGBA quadruple). -/
structure AppState where
  image : Canvas
  brush_color : Rgba
  is_drawing : Bool
  brush_size : Nat
  current_tool : Tool
  brush_shape : BrushShape
  brush_size_input : String
  color_r_input : String
  color_g_input : String
  color_b_input : String
  background_color : Rgba

/-- Decimal digit value of a character, `None` for a non-digit
(`char::to_digit(10)`). -/
def digitVal (c : Char) : Option Nat :=
  if 48 ≤ c.toNat ∧ c.toNat ≤ 57 then some (c.toNat - 48) else none

/-- Accumulate a non-empty all-digit string to its numeric value,
`None` otherwise (the digit loop of Rust `from_str_radix`). -/
def digitsVal (cs : List Char) : Option Nat :=
  if cs = [] then none
  else cs.foldl (fun acc c =>
    match acc, digitVal c with
    | some n, some d => some (n * 10 + d)
    | _, _ => none) (some 0)

/-- Decimal decoding with the optional leading `+` sign accepted by
Rust unsigned `parse`. -/
def decodeDec (s : String) : Option Nat :=
  match s.data with
  | List.cons c rest => if c = '+' then digitsVal rest else digitsVal (List.cons c rest)
  | List.nil => none

/-- Rust `str::parse` for an unsigned integer type with `bound = 2^w`:
digit parse plus overflow rejection (an intermediate overflow in the
checked accumulation occurs iff the final value is out of range, since
the accumulator is monotone). -/
def parseUnsigned (bound : Nat) (s : String) : Option Nat :=
  match decodeDec s with
  | some n => if n < bound then some n else none
  | none => none

/-- `parse::<u32>()`. -/
def parseU32 (s : String) : Option Nat :=
  parseUnsigned 4294967296 s

/-- `parse::<u8>()`. -/
def parseU8 (s : String) : Option Nat :=
  parseUnsigned 256 s

/-- `TextBoxController::event` on Enter for the brush-size box:
`if let Ok(size) = input.parse::<u32>() { if size > 0 { brush_size = size } }`. -/
def commitBrushSizeInput (st : AppState) : AppState :=
  match parseU32 st.brush_size_input with
  | some n => if 0 < n then { st with brush_size := n } else st
  | none => st

/-- `update_brush_color`: each channel is
`parse::<u8>().unwrap_or(0).clamp(0, 255)`; the brush color is
`Color::rgb8(r, g, b)` (fully opaque). -/
def update_brush_color (st : AppState) : AppState :=
  { st with brush_color :=
      (min (max ((parseU8 st.color_r_input).getD 0) 0) 255,
       min (max ((parseU8 st.color_g_input).getD 0) 0) 255,
       min (max ((parseU8 st.color_b_input).getD 0) 0) 255,
       255) }

/-- A second definition following the words of the C8 claim, to be
compared with `update_brush_color`: parse the channel string as an
integer in `0–255`, substituting `0` when unparsable or out of range. -/
def specChannelValue (s : String) : Nat :=
  match decodeDec s with
  | some n => if n ≤ 255 then n else 0
  | none => 0

/-- `for pixel in image.pixels_mut() { *pixel = col }`: set every pixel
of the buffer to `col`. -/
def fillCanvas (c : Canvas) (col : Rgba) : Canvas :=
  { c with pix := fun i j => if i < c.width ∧ j < c.height then col else c.pix i j }

/-- `set_background_color`: store the color and set every pixel of the
canvas to it. -/
def set_background_color (st : AppState) (col : Rgba) : AppState :=
  { st with background_color := col, image := fillCanvas st.image col }

/-- The `Clear Canvas` button handler: set every pixel of the canvas to
opaque white `Rgba([255, 255, 255, 255])`; no other field is touched. -/
def clear_canvas (st : AppState) : AppState :=
  { st with image := fillCanvas st.image (255, 255, 255, 255) }

/-- The initial `AppState` built in `main`: an 800×600 canvas of opaque
white, black brush, size 5, Brush tool, Square shape, white background. -/
def initialState : AppState :=
  { image := whiteCanvas 800 600,
    brush_color := (0, 0, 0, 255),
    is_drawing := false,
    brush_size := 5,
    current_tool := Tool.Brush,
    brush_shape := BrushShape.Square,
    brush_size_input := "5",
    color_r_input := "0",
    color_g_input := "0",
    color_b_input := "0",
    background_color := (255, 255, 255, 255) }

/-- Square branch of `draw_on_canvas`:
`x_min = (x_center - radius).max(0) as u32`. -/
def squareXminU (cv r : Int) : Nat :=
  toU32 (max (wrap32 (cv - r)) 0)

/-- Square branch of `draw_on_canvas`:
`x_max = (x_center + radius + 1).min(image.width() as i32) as u32`
(each `i32` operation wraps). -/
def squareXmaxU (w : Nat) (cv r : Int) : Nat :=
  toU32 (min (wrap32 (wrap32 (cv + r) + 1)) (wrap32 w))

/-- Width (`x_max - x_min` on `u32`) of the temporary brush image built
by `RgbaImage::from_pixel` in the Square branch; also used for the
height with `(h, cy)` in place of `(w, cx)`. -/
def squareBrushW (w : Nat) (cv r : Int) : Nat :=
  u32sub (squareXmaxU w cv r) (squareXminU cv r)

/-- The set of canvas coordinates written by the Square branch:
`imageops::replace` copies the `squareBrushW w cx r × squareBrushW h cy r`
one-color brush image onto the canvas at offset `(x_min, y_min)`,
clipped to the canvas bounds. -/
def sqWrite (w h : Nat) (cx cy r : Int) (i j : Nat) : Prop :=
  (squareXminU cx r ≤ i ∧ i < min (squareXminU cx r + squareBrushW w cx r) w) ∧
  (squareXminU cy r ≤ j ∧ j < min (squareXminU cy r + squareBrushW h cy r) h)

instance (w h : Nat) (cx cy r : Int) (i j : Nat) : Decidable (sqWrite w h cx cy r i j) :=
  inferInstanceAs (Decidable (_ ∧ _))

/-- `BrushShape::Square` branch of `draw_on_canvas` acting on the
canvas, in the case where `RgbaImage::from_pixel` succeeds: fill the
clipped brush rectangle with `col`.  `from_pixel`'s documented panic
on an oversized brush buffer is modeled separately by `squarePanics`
and `drawSquareChecked`; theorems that use `drawSquare` directly carry
hypotheses confining it to the non-panicking region. -/
def drawSquare (c : Canvas) (cx cy r : Int) (col : Rgba) : Canvas :=
  { c with pix := fun i j =>
      if sqWrite c.width c.height cx cy r i j then col else c.pix i j }

/-- The per-pixel test of the Circle branch:
`dx*dx + dy*dy <= radius*radius` with `dx = x - x_center`,
`dy = y - y_center`, every `i32` operation wrapping. -/
def circleCond (cx cy r x y : Int) : Prop :=
  wrap32 (wrap32 (wrap32 (x - cx) * wrap32 (x - cx)) +
          wrap32 (wrap32 (y - cy) * wrap32 (y - cy))) ≤ wrap32 (r * r)

instance (cx cy r x y : Int) : Decidable (circleCond cx cy r x y) :=
  inferInstanceAs (Decidable (_ ≤ _))

/-- Inner loop of the Circle branch
(`for y in ya..=yb { if cond { image.put_pixel(x as u32, y as u32, color) } }`). -/
def circleInnerLoop (cx cy r x ya yb : Int) (col : Rgba)
    (f : Nat → Nat → Rgba) : Nat → Nat → Rgba :=
  (intRange ya yb).foldl
    (fun g y => if circleCond cx cy r x y then putPix g (toU32 x) (toU32 y) col else g) f

/-- Outer loop of the Circle branch (`for x in xa..=xb { ... }`). -/
def circleOuterLoop (cx cy r xa xb ya yb : Int) (col : Rgba)
    (f : Nat → Nat → Rgba) : Nat → Nat → Rgba :=
  (intRange xa xb).foldl (fun g x => circleInnerLoop cx cy r x ya yb col g) f

/-- `BrushShape::Circle` branch of `draw_on_canvas`: loop over the
bounding box `(cx-r..=cx+r) × (cy-r..=cy+r)` clamped to
`0..=width-1 × 0..=height-1` and set the pixels inside the disc. -/
def drawCircle (c : Canvas) (cx cy r : Int) (col : Rgba) : Canvas :=
  { c with pix := circleOuterLoop cx cy r (max (wrap32 (cx - r)) 0) (min (wrap32 (cx + r)) (wrap32 (wrap32 c.width - 1))) (max (wrap32 (cy - r)) 0) (min (wrap32 (cy + r)) (wrap32 (wrap32 c.height - 1))) col c.pix }

/-- The coordinates written by the Circle branch, as an explicit
predicate: some loop iteration `(x, y)` passes the disc test and lands
on `(i, j)`. -/
def circleWrite (w h : Nat) (cx cy r : Int) (i j : Nat) : Prop :=
  ∃ x ∈ intRange (max (wrap32 (cx - r)) 0) (min (wrap32 (cx + r)) (wrap32 (wrap32 w - 1))),
  ∃ y ∈ intRange (max (wrap32 (cy - r)) 0) (min (wrap32 (cy + r)) (wrap32 (wrap32 h - 1))),
    circleCond cx cy r x y ∧ i = toU32 x ∧ j = toU32 y

instance (w h : Nat) (cx cy r : Int) (i j : Nat) : Decidable (circleWrite w h cx cy r i j) :=
  inferInstanceAs (Decidable (∃ x ∈ intRange (max (wrap32 (cx - r)) 0) (min (wrap32 (cx + r)) (wrap32 (wrap32 w - 1))), ∃ y ∈ intRange (max (wrap32 (cy - r)) 0) (min (wrap32 (cy + r)) (wrap32 (wrap32 h - 1))), circleCond cx cy r x y ∧ i = toU32 x ∧ j = toU32 y))

/-- The coordinates written by a stamp with the given shape. -/
def shapeWrite (sh : BrushShape) (w h : Nat) (cx cy r : Int) (i j : Nat) : Prop :=
  match sh with
  | BrushShape.Square => sqWrite w h cx cy r i j
  | BrushShape.Circle => circleWrite w h cx cy r i j

instance (sh : BrushShape) (w h : Nat) (cx cy r : Int) (i j : Nat) :
    Decidable (shapeWrite sh w h cx cy r i j) :=
  match sh with
  | BrushShape.Square => inferInstanceAs (Decidable (sqWrite w h cx cy r i j))
  | BrushShape.Circle => inferInstanceAs (Decidable (circleWrite w h cx cy r i j))

/-- The coordinates written when `draw_on_canvas` stamps `st` at canvas
center `(cx, cy)` (footprint of the stamp). -/
def stampFootprint (st : AppState) (cx cy : Int) (i j : Nat) : Prop :=
  shapeWrite st.brush_shape st.image.width st.image.height cx cy (toI32 st.brush_size) i j

instance (st : AppState) (cx cy : Int) (i j : Nat) :
    Decidable (stampFootprint st cx cy i j) :=
  inferInstanceAs (Decidable (shapeWrite st.brush_shape st.image.width st.image.height cx cy (toI32 st.brush_size) i j))

/-- The stamp color chosen by `draw_on_canvas`: the brush color for
`Tool::Brush`, the configured background color for `Tool::Eraser`. -/
def toolColor (st : AppState) : Rgba :=
  match st.current_tool with
  | Tool.Brush => st.brush_color
  | Tool.Eraser => st.background_color

/-- `draw_on_canvas` at canvas-space center `(cx, cy)` (the i32 values
`x_center`, `y_center`; the caller derives them from the f64 pointer
position by `(pos * dim / viewport) as i32`): stamp the current shape
with radius `brush_size as i32` in the tool color. -/
def draw_on_canvas (st : AppState) (cx cy : Int) : AppState :=
  { st with image :=
      match st.brush_shape with
      | BrushShape.Square => drawSquare st.image cx cy (toI32 st.brush_size) (toolColor st)
      | BrushShape.Circle => drawCircle st.image cx cy (toI32 st.brush_size) (toolColor st) }

/-- The dirty rectangle `(origin_x, origin_y, size_x, size_y)` computed
at the end of `draw_on_canvas`:
`Rect::from_origin_size(((x_center - radius) * 800 / w, (y_center - radius) * 600 / h), ((radius*2) * 800 / w, (radius*2) * 600 / h))`.
The source computes the products and quotients in `f64`; at the
program's fixed canvas (`w = 800`, `h = 600`, the dimensions never
change after creation) every product `k * 800.0` is an exactly
representable integer below `2^53` and every quotient divides exactly,
so exact `Int` arithmetic coincides with the `f64` computation. -/
def dirtyRect (w h : Nat) (cx cy r : Int) : Int × Int × Int × Int :=
  (wrap32 (cx - r) * 800 / w,
   wrap32 (cy - r) * 600 / h,
   wrap32 (r * 2) * 800 / w,
   wrap32 (r * 2) * 600 / h)

/-- The Brush/Eraser toolbar button handlers:
`state.current_tool = t`. -/
def selectTool (st : AppState) (t : Tool) : AppState :=
  { st with current_tool := t }

/-- Byte length of the temporary brush image the Square branch asks
`RgbaImage::from_pixel` for: `4 * width * height` (the
`image_buffer_len` of an RGBA buffer), computed in unbounded `Nat`. -/
def squareBrushBytes (w h : Nat) (cx cy r : Int) : Nat :=
  4 * squareBrushW w cx r * squareBrushW h cy r

/-- The documented panic condition of `RgbaImage::from_pixel` in the
Square branch: the brush buffer length exceeds the allocation limit.
`ImageBuffer::new` panics (`expect` on `image_buffer_len`) when
`4 * bw * bh` overflows `usize`, and a length above `isize::MAX` bytes
panics in `Vec` with a capacity overflow; both panics are deterministic
and fire before any pixel is painted, so the panic region is
`4 * bw * bh > isize::MAX = 2^63 - 1`.  (A merely huge allocation below
that limit, as in the C3 underflow, is not a documented panic and is
assumed to succeed.) -/
def squarePanics (w h : Nat) (cx cy r : Int) : Prop :=
  9223372036854775807 < squareBrushBytes w h cx cy r

instance (w h : Nat) (cx cy r : Int) : Decidable (squarePanics w h cx cy r) :=
  inferInstanceAs (Decidable (_ < _))

/-- The Square branch with `from_pixel`'s panic modeled: `none` when
the brush buffer length overflows the allocation limit (the program
panics and paints nothing), otherwise the clipped fill `drawSquare`. -/
def drawSquareChecked (c : Canvas) (cx cy r : Int) (col : Rgba) : Option Canvas :=
  if squarePanics c.width c.height cx cy r then none
  else some (drawSquare c cx cy r col)

/-- `draw_on_canvas` with the Square-branch panic modeled: `none` when
the brush allocation panics, otherwise the drawn state.  The Circle
branch allocates no brush image and never panics in release mode. -/
def draw_on_canvas_checked (st : AppState) (cx cy : Int) : Option AppState :=
  match st.brush_shape with
  | BrushShape.Square =>
      if squarePanics st.image.width st.image.height cx cy (toI32 st.brush_size)
      then none
      else some (draw_on_canvas st cx cy)
  | BrushShape.Circle => some (draw_on_canvas st cx cy)

/-- `wrap32` is the identity on in-range `i32` values. -/
theorem wrap32_id {x : Int} (h1 : -2147483648 ≤ x) (h2 : x < 2147483648) :
    wrap32 x = x := by
  unfold wrap32; omega

/-- `as u32` agrees with `toNat` on nonnegative in-range values. -/
theorem toU32_of_nonneg {x : Int} (h1 : 0 ≤ x) (h2 : x < 4294967296) :
    toU32 x = x.toNat := by
  unfold toU32; omega

/-- `as u32` of a small natural number is itself. -/
theorem toU32_coe {n : Nat} (h : n < 4294967296) : toU32 (n : Int) = n := by
  unfold toU32; omega

/-- Membership in the embedded Rust range `a..=b`. -/
theorem mem_intRange {x a b : Int} : x ∈ intRange a b ↔ a ≤ x ∧ x ≤ b := by
  unfold intRange
  rw [List.mem_map]
  constructor
  · rintro ⟨k, hk, rfl⟩
    rw [List.mem_range] at hk
    omega
  · intro h
    refine ⟨(x - a).toNat, ?_, by omega⟩
    rw [List.mem_range]
    omega

/-- Pointwise effect of the inner (`y`) loop of the Circle branch. -/
theorem circleInnerLoop_pix (cx cy r x ya yb : Int) (col : Rgba) :
    ∀ (f : Nat → Nat → Rgba) (i j : Nat),
      circleInnerLoop cx cy r x ya yb col f i j =
        if ∃ y ∈ intRange ya yb, circleCond cx cy r x y ∧ i = toU32 x ∧ j = toU32 y
        then col else f i j := by
  unfold circleInnerLoop
  generalize intRange ya yb = ys
  induction ys with
  | nil => intro f i j; simp
  | cons y ys ih =>
    intro f i j
    rw [List.foldl_cons, ih]
    have hcons : (∃ z ∈ y :: ys, circleCond cx cy r x z ∧ i = toU32 x ∧ j = toU32 z) ↔
        ((circleCond cx cy r x y ∧ i = toU32 x ∧ j = toU32 y) ∨
         (∃ z ∈ ys, circleCond cx cy r x z ∧ i = toU32 x ∧ j = toU32 z)) := by
      constructor
      · rintro ⟨z, hz, hp⟩
        rcases List.mem_cons.mp hz with h1 | h2
        · subst h1; exact Or.inl hp
        · exact Or.inr ⟨z, h2, hp⟩
      · rintro (hp | ⟨z, hz, hp⟩)
        · exact ⟨y, List.mem_cons_self y ys, hp⟩
        · exact ⟨z, List.mem_cons_of_mem y hz, hp⟩
    simp only [hcons]
    by_cases hex : ∃ z ∈ ys, circleCond cx cy r x z ∧ i = toU32 x ∧ j = toU32 z
    · have hor : (circleCond cx cy r x y ∧ i = toU32 x ∧ j = toU32 y) ∨
          (∃ z ∈ ys, circleCond cx cy r x z ∧ i = toU32 x ∧ j = toU32 z) := Or.inr hex
      rw [if_pos hex, if_pos hor]
    · rw [if_neg hex]
      by_cases hc : circleCond cx cy r x y
      · rw [if_pos hc]
        unfold putPix
        by_cases hij : i = toU32 x ∧ j = toU32 y
        · have hor : (circleCond cx cy r x y ∧ i = toU32 x ∧ j = toU32 y) ∨
              (∃ z ∈ ys, circleCond cx cy r x z ∧ i = toU32 x ∧ j = toU32 z) :=
            Or.inl ⟨hc, hij.1, hij.2⟩
          rw [if_pos hij, if_pos hor]
        · rw [if_neg hij, if_neg]
          rintro (hp | hp)
          · exact hij ⟨hp.2.1, hp.2.2⟩
          · exact hex hp
      · rw [if_neg hc, if_neg]
        rintro (hp | hp)
        · exact hc hp.1
        · exact hex hp

/-- Pointwise effect of the outer (`x`) loop of the Circle branch. -/
theorem circleOuterLoop_pix (cx cy r xa xb ya yb : Int) (col : Rgba) :
    ∀ (f : Nat → Nat → Rgba) (i j : Nat),
      circleOuterLoop cx cy r xa xb ya yb col f i j =
        if ∃ x ∈ intRange xa xb, ∃ y ∈ intRange ya yb,
            circleCond cx cy r x y ∧ i = toU32 x ∧ j = toU32 y
        then col else f i j := by
  unfold circleOuterLoop
  generalize intRange xa xb = xs
  induction xs with
  | nil => intro f i j; simp
  | cons x xs ih =>
    intro f i j
    rw [List.foldl_cons, ih]
    have hcons : (∃ z ∈ x :: xs, ∃ y ∈ intRange ya yb,
          circleCond cx cy r z y ∧ i = toU32 z ∧ j = toU32 y) ↔
        ((∃ y ∈ intRange ya yb, circleCond cx cy r x y ∧ i = toU32 x ∧ j = toU32 y) ∨
         (∃ z ∈ xs, ∃ y ∈ intRange ya yb,
            circleCond cx cy r z y ∧ i = toU32 z ∧ j = toU32 y)) := by
      constructor
      · rintro ⟨z, hz, hp⟩
        rcases List.mem_cons.mp hz with h1 | h2
        · subst h1; exact Or.inl hp
        · exact Or.inr ⟨z, h2, hp⟩
      · rintro (hp | ⟨z, hz, hp⟩)
        · exact ⟨x, List.mem_cons_self x xs, hp⟩
        · exact ⟨z, List.mem_cons_of_mem x hz, hp⟩
    simp only [hcons]
    by_cases hex : ∃ z ∈ xs, ∃ y ∈ intRange ya yb,
        circleCond cx cy r z y ∧ i = toU32 z ∧ j = toU32 y
    · have hor : (∃ y ∈ intRange ya yb, circleCond cx cy r x y ∧ i = toU32 x ∧ j = toU32 y) ∨
          (∃ z ∈ xs, ∃ y ∈ intRange ya yb,
            circleCond cx cy r z y ∧ i = toU32 z ∧ j = toU32 y) := Or.inr hex
      rw [if_pos hex, if_pos hor]
    · rw [if_neg hex, circleInnerLoop_pix]
      by_cases hx : ∃ y ∈ intRange ya yb, circleCond cx cy r x y ∧ i = toU32 x ∧ j = toU32 y
      · have hor : (∃ y ∈ intRange ya yb, circleCond cx cy r x y ∧ i = toU32 x ∧ j = toU32 y) ∨
            (∃ z ∈ xs, ∃ y ∈ intRange ya yb,
              circleCond cx cy r z y ∧ i = toU32 z ∧ j = toU32 y) := Or.inl hx
        rw [if_pos hx, if_pos hor]
      · rw [if_neg hx, if_neg]
        rintro (hp | hp)
        · exact hx hp
        · exact hex hp

/-- `circleWrite` unfolded (definitional). -/
theorem circleWrite_iff (w h : Nat) (cx cy r : Int) (i j : Nat) :
    circleWrite w h cx cy r i j ↔
      ∃ x ∈ intRange (max (wrap32 (cx - r)) 0) (min (wrap32 (cx + r)) (wrap32 (wrap32 w - 1))),
      ∃ y ∈ intRange (max (wrap32 (cy - r)) 0) (min (wrap32 (cy + r)) (wrap32 (wrap32 h - 1))),
        circleCond cx cy r x y ∧ i = toU32 x ∧ j = toU32 y :=
  Iff.rfl

/-- Pointwise characterization of the Circle branch: a pixel holds the
stamp color iff some loop iteration writes it. -/
theorem drawCircle_pix (c : Canvas) (cx cy r : Int) (col : Rgba) (i j : Nat) :
    (drawCircle c cx cy r col).pix i j =
      if circleWrite c.width c.height cx cy r i j then col else c.pix i j := by
  dsimp only [drawCircle]
  rw [circleOuterLoop_pix]
  simp only [circleWrite_iff]

/-- `sqWrite` unfolded (definitional). -/
theorem sqWrite_iff (w h : Nat) (cx cy r : Int) (i j : Nat) :
    sqWrite w h cx cy r i j ↔
      ((squareXminU cx r ≤ i ∧ i < min (squareXminU cx r + squareBrushW w cx r) w) ∧
       (squareXminU cy r ≤ j ∧ j < min (squareXminU cy r + squareBrushW h cy r) h)) :=
  Iff.rfl

/-- Pointwise characterization of the Square branch. -/
theorem drawSquare_pix (c : Canvas) (cx cy r : Int) (col : Rgba) (i j : Nat) :
    (drawSquare c cx cy r col).pix i j =
      if sqWrite c.width c.height cx cy r i j then col else c.pix i j := by
  rw [drawSquare]

/-- The Square branch leaves the canvas dimensions unchanged. -/
theorem drawSquare_dims (c : Canvas) (cx cy r : Int) (col : Rgba) :
    (drawSquare c cx cy r col).width = c.width ∧
    (drawSquare c cx cy r col).height = c.height :=
  ⟨rfl, rfl⟩

/-- The Circle branch leaves the canvas dimensions unchanged. -/
theorem drawCircle_dims (c : Canvas) (cx cy r : Int) (col : Rgba) :
    (drawCircle c cx cy r col).width = c.width ∧
    (drawCircle c cx cy r col).height = c.height := by
  constructor <;> rw [drawCircle]

/-- `shapeWrite` at `Square` (definitional). -/
theorem shapeWrite_square (w h : Nat) (cx cy r : Int) (i j : Nat) :
    shapeWrite BrushShape.Square w h cx cy r i j ↔ sqWrite w h cx cy r i j :=
  Iff.rfl

/-- `shapeWrite` at `Circle` (definitional). -/
theorem shapeWrite_circle (w h : Nat) (cx cy r : Int) (i j : Nat) :
    shapeWrite BrushShape.Circle w h cx cy r i j ↔ circleWrite w h cx cy r i j :=
  Iff.rfl

/-- With the Square shape selected, `draw_on_canvas` applies the Square
branch to the canvas. -/
theorem draw_on_canvas_image_sq (s : AppState) (cx cy : Int)
    (hs : s.brush_shape = BrushShape.Square) :
    (draw_on_canvas s cx cy).image =
      drawSquare s.image cx cy (toI32 s.brush_size) (toolColor s) := by
  unfold draw_on_canvas
  rw [hs]

/-- With the Circle shape selected, `draw_on_canvas` applies the Circle
branch to the canvas. -/
theorem draw_on_canvas_image_ci (s : AppState) (cx cy : Int)
    (hs : s.brush_shape = BrushShape.Circle) :
    (draw_on_canvas s cx cy).image =
      drawCircle s.image cx cy (toI32 s.brush_size) (toolColor s) := by
  unfold draw_on_canvas
  rw [hs]

/-- `draw_on_canvas` only repaints the canvas: every other state field
is unchanged, and the canvas dimensions are preserved. -/
theorem draw_on_canvas_frame (s : AppState) (cx cy : Int) :
    (draw_on_canvas s cx cy).brush_color = s.brush_color ∧
    (draw_on_canvas s cx cy).is_drawing = s.is_drawing ∧
    (draw_on_canvas s cx cy).brush_size = s.brush_size ∧
    (draw_on_canvas s cx cy).current_tool = s.current_tool ∧
    (draw_on_canvas s cx cy).brush_shape = s.brush_shape ∧
    (draw_on_canvas s cx cy).background_color = s.background_color ∧
    (draw_on_canvas s cx cy).image.width = s.image.width ∧
    (draw_on_canvas s cx cy).image.height = s.image.height := by
  refine ⟨rfl, rfl, rfl, rfl, rfl, rfl, ?_, ?_⟩ <;>
  · cases hs : s.brush_shape
    · rw [draw_on_canvas_image_sq s cx cy hs, drawSquare]
    · rw [draw_on_canvas_image_ci s cx cy hs, drawCircle]

/-- Any pixel inside the stamp footprint holds the tool color after
`draw_on_canvas`. -/
theorem draw_writes (s : AppState) (cx cy : Int) (i j : Nat)
    (h : stampFootprint s cx cy i j) :
    (draw_on_canvas s cx cy).image.pix i j = toolColor s := by
  unfold stampFootprint at h
  cases hs : s.brush_shape
  · rw [hs, shapeWrite_square] at h
    rw [draw_on_canvas_image_sq s cx cy hs, drawSquare_pix, if_pos h]
  · rw [hs, shapeWrite_circle] at h
    rw [draw_on_canvas_image_ci s cx cy hs, drawCircle_pix, if_pos h]

/-- A checked draw that returns a state returns the unchecked draw. -/
theorem draw_checked_some (s : AppState) (cx cy : Int) (t : AppState)
    (h : draw_on_canvas_checked s cx cy = some t) :
    t = draw_on_canvas s cx cy := by
  unfold draw_on_canvas_checked at h
  cases hs : s.brush_shape
  · rw [hs] at h
    dsimp only at h
    by_cases hp : squarePanics s.image.width s.image.height cx cy (toI32 s.brush_size)
    · rw [if_pos hp] at h
      exact Option.noConfusion h
    · rw [if_neg hp] at h
      exact (Option.some_inj.mp h).symm
  · rw [hs] at h
    dsimp only at h
    exact (Option.some_inj.mp h).symm

/-- A Square-shape draw whose brush allocation panics returns `none`. -/
theorem draw_checked_none (s : AppState) (cx cy : Int)
    (hs : s.brush_shape = BrushShape.Square)
    (hp : squarePanics s.image.width s.image.height cx cy (toI32 s.brush_size)) :
    draw_on_canvas_checked s cx cy = none := by
  unfold draw_on_canvas_checked
  rw [hs]
  dsimp only
  rw [if_pos hp]

/-- One axis of the Square-branch footprint: under valid `i32` inputs
and an in-bounds center coordinate, the written `u32` interval is
exactly the claimed interval `[cv-r, cv+r+1) ∩ [0, w)` — the `i32`
wrap in `cv+r+1` (when `cv+r+1 ≥ 2^31`) is cancelled by the `as u32`
cast, and the `u32` subtraction does not underflow. -/
theorem square_axis (w : Nat) (cv r : Int) (hw0 : 0 < w) (hw : (w : Int) < 2147483648)
    (hc0 : 0 ≤ cv) (hc1 : cv < (w : Int)) (hr0 : 0 ≤ r) (hr1 : r < 2147483648) (i : Nat) :
    (squareXminU cv r ≤ i ∧ i < min (squareXminU cv r + squareBrushW w cv r) w)
    ↔ (cv - r ≤ (i : Int) ∧ (i : Int) < cv + r + 1 ∧ i < w) := by
  have hxmin : (squareXminU cv r : Int) = max (cv - r) 0 := by
    unfold squareXminU toU32 wrap32
    omega
  have hw32 : wrap32 w = (w : Int) := by
    unfold wrap32
    omega
  have hB : (cv + r + 1 < 2147483648 ∧ wrap32 (wrap32 (cv + r) + 1) = cv + r + 1) ∨
      (2147483648 ≤ cv + r + 1 ∧ wrap32 (wrap32 (cv + r) + 1) = cv + r + 1 - 4294967296) := by
    unfold wrap32
    omega
  rcases hB with ⟨hb1, hb2⟩ | ⟨hb1, hb2⟩
  · have hxmax : (squareXmaxU w cv r : Int) = min (cv + r + 1) w := by
      unfold squareXmaxU
      rw [hb2, hw32]
      unfold toU32
      omega
    unfold squareBrushW u32sub
    omega
  · have hxmax : (squareXmaxU w cv r : Int) = cv + r + 1 := by
      unfold squareXmaxU
      rw [hb2, hw32]
      unfold toU32
      omega
    unfold squareBrushW u32sub
    omega

/-- When `cv + r + 1` does not overflow `i32` (and the center is in
bounds), the brush extent on that axis is at most the canvas extent. -/
theorem squareBrushW_le (w : Nat) (cv r : Int) (hw0 : 0 < w)
    (hw : (w : Int) < 2147483648) (hc0 : 0 ≤ cv) (hc1 : cv < (w : Int))
    (hr0 : 0 ≤ r) (hnw : cv + r + 1 < 2147483648) :
    squareBrushW w cv r ≤ w := by
  have hw32 : wrap32 w = (w : Int) := by
    unfold wrap32
    omega
  have hb2 : wrap32 (wrap32 (cv + r) + 1) = cv + r + 1 := by
    unfold wrap32
    omega
  have hxmin : (squareXminU cv r : Int) = max (cv - r) 0 := by
    unfold squareXminU toU32 wrap32
    omega
  have hxmax : (squareXmaxU w cv r : Int) = min (cv + r + 1) w := by
    unfold squareXmaxU
    rw [hb2, hw32]
    unfold toU32
    omega
  unfold squareBrushW u32sub
  omega

/-- C1 (amended): for every radius `r ≥ 0`, stamp color, and in-bounds
center such that `cx + r + 1` and `cy + r + 1` stay within `i32` range
(so the brush buffer fits the allocation limit and
`RgbaImage::from_pixel` cannot panic), the Square-shape stamp completes
and sets exactly the pixels of the rectangle
`[cx-r, cx+r+1) × [cy-r, cy+r+1)` intersected with the canvas bounds to
the stamp color — `(2r+1)²` pixels when the rectangle is not clipped —
and every pixel outside that rectangle is unchanged.  Without the
radius bound the claim is false: see `C1_square_stamp_counterexample`,
where the brush buffer length overflows and the stamp panics before
painting anything. -/
theorem C1_square_stamp (c : Canvas) (cx cy r : Int) (col : Rgba)
    (hw0 : 0 < c.width) (hw : (c.width : Int) < 2147483648)
    (hh0 : 0 < c.height) (hh : (c.height : Int) < 2147483648)
    (hwh4 : 4 * c.width * c.height ≤ 9223372036854775807)
    (hcx0 : 0 ≤ cx) (hcx1 : cx < (c.width : Int))
    (hcy0 : 0 ≤ cy) (hcy1 : cy < (c.height : Int))
    (hr0 : 0 ≤ r)
    (hnx : cx + r + 1 < 2147483648) (hny : cy + r + 1 < 2147483648) :
    drawSquareChecked c cx cy r col = some (drawSquare c cx cy r col) ∧
    (∀ i j : Nat, i < c.width → j < c.height →
      (drawSquare c cx cy r col).pix i j =
        if cx - r ≤ (i : Int) ∧ (i : Int) < cx + r + 1 ∧
           cy - r ≤ (j : Int) ∧ (j : Int) < cy + r + 1
        then col else c.pix i j) ∧
    (∀ i j : Nat, c.width ≤ i ∨ c.height ≤ j →
      (drawSquare c cx cy r col).pix i j = c.pix i j) ∧
    (0 ≤ cx - r → cx + r + 1 ≤ (c.width : Int) →
     0 ≤ cy - r → cy + r + 1 ≤ (c.height : Int) →
      ((Finset.range c.width ×ˢ Finset.range c.height).filter
        (fun p => sqWrite c.width c.height cx cy r p.1 p.2)).card =
        (2 * r + 1).toNat ^ 2) := by
  have hr1 : r < 2147483648 := by omega
  have hx := fun i => square_axis c.width cx r hw0 hw hcx0 hcx1 hr0 hr1 i
  have hy := fun j => square_axis c.height cy r hh0 hh hcy0 hcy1 hr0 hr1 j
  have hbw := squareBrushW_le c.width cx r hw0 hw hcx0 hcx1 hr0 hnx
  have hbh := squareBrushW_le c.height cy r hh0 hh hcy0 hcy1 hr0 hny
  have hnp : ¬ squarePanics c.width c.height cx cy r := by
    unfold squarePanics squareBrushBytes
    have hmul : 4 * squareBrushW c.width cx r * squareBrushW c.height cy r ≤
        4 * c.width * c.height :=
      Nat.mul_le_mul (Nat.mul_le_mul_left 4 hbw) hbh
    omega
  refine ⟨?_, ?_, ?_, ?_⟩
  · unfold drawSquareChecked
    rw [if_neg hnp]
  · intro i j hi hj
    rw [drawSquare_pix]
    by_cases hcond : cx - r ≤ (i : Int) ∧ (i : Int) < cx + r + 1 ∧
        cy - r ≤ (j : Int) ∧ (j : Int) < cy + r + 1
    · rw [if_pos hcond, if_pos]
      exact (sqWrite_iff _ _ _ _ _ _ _).mpr
        ⟨(hx i).mpr ⟨hcond.1, hcond.2.1, hi⟩, (hy j).mpr ⟨hcond.2.2.1, hcond.2.2.2, hj⟩⟩
    · rw [if_neg hcond, if_neg]
      intro hsw
      obtain ⟨ha, hb⟩ := (sqWrite_iff _ _ _ _ _ _ _).mp hsw
      exact hcond ⟨((hx i).mp ha).1, ((hx i).mp ha).2.1,
        ((hy j).mp hb).1, ((hy j).mp hb).2.1⟩
  · intro i j hij
    rw [drawSquare_pix, if_neg]
    intro hsw
    obtain ⟨ha, hb⟩ := (sqWrite_iff _ _ _ _ _ _ _).mp hsw
    have h1 : i < c.width := ((hx i).mp ha).2.2
    have h2 : j < c.height := ((hy j).mp hb).2.2
    omega
  · intro h1 h2 h3 h4
    have key : ∀ p : Nat × Nat, p ∈ Finset.range c.width ×ˢ Finset.range c.height →
        (sqWrite c.width c.height cx cy r p.1 p.2 ↔
          (p.1 ∈ Finset.Ico (cx - r).toNat (cx + r + 1).toNat ∧
           p.2 ∈ Finset.Ico (cy - r).toNat (cy + r + 1).toNat)) := by
      intro p _
      rw [sqWrite_iff, hx p.1, hy p.2, Finset.mem_Ico, Finset.mem_Ico]
      omega
    calc ((Finset.range c.width ×ˢ Finset.range c.height).filter
            (fun p => sqWrite c.width c.height cx cy r p.1 p.2)).card
        = ((Finset.range c.width ×ˢ Finset.range c.height).filter
            (fun p => p.1 ∈ Finset.Ico (cx - r).toNat (cx + r + 1).toNat ∧
                      p.2 ∈ Finset.Ico (cy - r).toNat (cy + r + 1).toNat)).card := by
          rw [Finset.filter_congr key]
      _ = ((Finset.range c.width).filter
            (fun i => i ∈ Finset.Ico (cx - r).toNat (cx + r + 1).toNat) ×ˢ
           (Finset.range c.height).filter
            (fun j => j ∈ Finset.Ico (cy - r).toNat (cy + r + 1).toNat)).card := by
          rw [Finset.filter_product]
      _ = (2 * r + 1).toNat ^ 2 := by
          rw [Finset.card_product]
          have e1 : (Finset.range c.width).filter
              (fun i => i ∈ Finset.Ico (cx - r).toNat (cx + r + 1).toNat) =
              Finset.Ico (cx - r).toNat (cx + r + 1).toNat := by
            apply Finset.ext
            intro i
            simp only [Finset.mem_filter, Finset.mem_range, Finset.mem_Ico]
            omega
          have e2 : (Finset.range c.height).filter
              (fun j => j ∈ Finset.Ico (cy - r).toNat (cy + r + 1).toNat) =
              Finset.Ico (cy - r).toNat (cy + r + 1).toNat := by
            apply Finset.ext
            intro j
            simp only [Finset.mem_filter, Finset.mem_range, Finset.mem_Ico]
            omega
          rw [e1, e2, Nat.card_Ico, Nat.card_Ico]
          have : (cx + r + 1).toNat - (cx - r).toNat = (2 * r + 1).toNat := by omega
          have h5 : (cy + r + 1).toNat - (cy - r).toNat = (2 * r + 1).toNat := by omega
          rw [this, h5, sq]

/-- C1 witness: a radius-1 Square stamp at center `(2,2)` of a white
5×5 canvas paints pixel `(3,3)` black. -/
theorem C1_square_stamp_witness :
    (drawSquare (whiteCanvas 5 5) 2 2 1 (0, 0, 0, 255)).pix 3 3 = (0, 0, 0, 255) := by
  have h := (C1_square_stamp (whiteCanvas 5 5) 2 2 1 (0, 0, 0, 255)
    (by decide) (by decide) (by decide) (by decide) (by decide) (by decide)
    (by decide) (by decide) (by decide) (by decide) (by decide)
    (by decide)).2.1 3 3 (by decide) (by decide)
  rw [h, if_pos]
  decide

/-- C1 counterexample to the claim as stated: at radius `2147483647`
(accepted by the brush-size input) with the in-bounds center
`(100, 100)` on the program's 800×600 canvas, the Square branch asks
`RgbaImage::from_pixel` for a `2147483748 × 2147483748` brush whose
buffer length `4 * bw * bh ≈ 1.8 * 10^19` exceeds the allocation
limit, so the program panics and paints nothing — while the claim
requires the clipped rectangle (here the whole canvas, including the
center pixel) to be painted. -/
theorem C1_square_stamp_counterexample :
    (0 : Int) ≤ 2147483647 ∧
    (0 : Int) ≤ 100 ∧ (100 : Int) < 800 ∧ (100 : Int) < 600 ∧
    squareBrushW 800 100 2147483647 = 2147483748 ∧
    squareBrushW 600 100 2147483647 = 2147483748 ∧
    drawSquareChecked (whiteCanvas 800 600) 100 100 2147483647 (0, 0, 0, 255) = none := by
  refine ⟨by norm_num, by norm_num, by norm_num, by norm_num, by decide, by decide, ?_⟩
  unfold drawSquareChecked
  rw [if_pos (by decide :
    squarePanics (whiteCanvas 800 600).width (whiteCanvas 800 600).height
      100 100 2147483647)]


/-- Squares are monotone in the absolute value. -/
theorem sq_le_sq_of_abs {a b : Int} (h1 : -b ≤ a) (h2 : a ≤ b) : a * a ≤ b * b := by
  nlinarith

/-- Converse: a square bound yields absolute-value bounds. -/
theorem abs_bounds_of_sq {a r : Int} (hr : 0 ≤ r) (h : a * a ≤ r * r) : -r ≤ a ∧ a ≤ r := by
  constructor <;> nlinarith

/-- A nonnegative integer whose square is at most `i32::MAX` is at most
`46340`. -/
theorem le_46340_of_sq {a : Int} (h0 : 0 ≤ a) (h : a * a ≤ 2147483647) : a ≤ 46340 := by
  nlinarith


/-- Characterization of the Circle-branch write set for an in-bounds
center when neither `r²` nor the squared canvas diagonal overflows
`i32`: a pixel is written iff it is in bounds and inside the closed
integer disc of radius `r` around the center. -/
theorem circleWrite_char (w h : Nat) (cx cy r : Int) (i j : Nat)
    (hw0 : 0 < w) (hh0 : 0 < h)
    (hwh : ((w : Int) - 1) ^ 2 + ((h : Int) - 1) ^ 2 ≤ 2147483647)
    (hcx0 : 0 ≤ cx) (hcx1 : cx < (w : Int)) (hcy0 : 0 ≤ cy) (hcy1 : cy < (h : Int))
    (hr0 : 0 ≤ r) (hr1 : r * r ≤ 2147483647) :
    circleWrite w h cx cy r i j ↔
      (i < w ∧ j < h ∧ ((i : Int) - cx) ^ 2 + ((j : Int) - cy) ^ 2 ≤ r ^ 2) := by
  rw [pow_two, pow_two] at hwh
  have hwsq : ((w : Int) - 1) * ((w : Int) - 1) ≤ 2147483647 := by
    linarith [mul_self_nonneg ((h : Int) - 1)]
  have hhsq : ((h : Int) - 1) * ((h : Int) - 1) ≤ 2147483647 := by
    linarith [mul_self_nonneg ((w : Int) - 1)]
  have hwb : (w : Int) - 1 ≤ 46340 := le_46340_of_sq (by omega) hwsq
  have hhb : (h : Int) - 1 ≤ 46340 := le_46340_of_sq (by omega) hhsq
  have hrb : r ≤ 46340 := le_46340_of_sq hr0 hr1
  have b1 : -2147483648 ≤ cx - r := by omega
  have b2 : cx - r < 2147483648 := by omega
  have b3 : -2147483648 ≤ cx + r := by omega
  have b4 : cx + r < 2147483648 := by omega
  have b5 : -2147483648 ≤ cy - r := by omega
  have b6 : cy - r < 2147483648 := by omega
  have b7 : -2147483648 ≤ cy + r := by omega
  have b8 : cy + r < 2147483648 := by omega
  have b9 : -2147483648 ≤ (w : Int) := by omega
  have b10 : (w : Int) < 2147483648 := by omega
  have b11 : -2147483648 ≤ (w : Int) - 1 := by omega
  have b12 : (w : Int) - 1 < 2147483648 := by omega
  have b13 : -2147483648 ≤ (h : Int) := by omega
  have b14 : (h : Int) < 2147483648 := by omega
  have b15 : -2147483648 ≤ (h : Int) - 1 := by omega
  have b16 : (h : Int) - 1 < 2147483648 := by omega
  have wrr : wrap32 (r * r) = r * r :=
    wrap32_id (by linarith [mul_self_nonneg r]) (by linarith)
  rw [circleWrite_iff, wrap32_id b1 b2, wrap32_id b3 b4, wrap32_id b9 b10,
    wrap32_id b11 b12, wrap32_id b5 b6, wrap32_id b7 b8, wrap32_id b13 b14,
    wrap32_id b15 b16]
  constructor
  · rintro ⟨x, hxmem, y, hymem, hcond, hi, hj⟩
    subst hi
    subst hj
    rw [mem_intRange] at hxmem hymem
    have hx0 : 0 ≤ x := le_trans (le_max_right _ _) hxmem.1
    have hy0 : 0 ≤ y := le_trans (le_max_right _ _) hymem.1
    have hxw : x ≤ (w : Int) - 1 := le_trans hxmem.2 (min_le_right _ _)
    have hyh : y ≤ (h : Int) - 1 := le_trans hymem.2 (min_le_right _ _)
    clear hxmem hymem
    have hdxb : (x - cx) * (x - cx) ≤ ((w : Int) - 1) * ((w : Int) - 1) :=
      sq_le_sq_of_abs (by omega) (by omega)
    have hdyb : (y - cy) * (y - cy) ≤ ((h : Int) - 1) * ((h : Int) - 1) :=
      sq_le_sq_of_abs (by omega) (by omega)
    have c1 : -2147483648 ≤ x - cx := by omega
    have c2 : x - cx < 2147483648 := by omega
    have c3 : -2147483648 ≤ y - cy := by omega
    have c4 : y - cy < 2147483648 := by omega
    have c5 : -2147483648 ≤ (x - cx) * (x - cx) := by
      linarith [mul_self_nonneg (x - cx)]
    have c6 : (x - cx) * (x - cx) < 2147483648 := by linarith
    have c7 : -2147483648 ≤ (y - cy) * (y - cy) := by
      linarith [mul_self_nonneg (y - cy)]
    have c8 : (y - cy) * (y - cy) < 2147483648 := by linarith
    have c9 : -2147483648 ≤ (x - cx) * (x - cx) + (y - cy) * (y - cy) := by
      linarith [mul_self_nonneg (x - cx), mul_self_nonneg (y - cy)]
    have c10 : (x - cx) * (x - cx) + (y - cy) * (y - cy) < 2147483648 := by linarith
    unfold circleCond at hcond
    rw [wrap32_id c1 c2, wrap32_id c3 c4, wrap32_id c5 c6, wrap32_id c7 c8,
      wrap32_id c9 c10, wrr] at hcond
    rw [toU32_of_nonneg hx0 (by omega), toU32_of_nonneg hy0 (by omega)]
    rw [Int.toNat_of_nonneg hx0, Int.toNat_of_nonneg hy0]
    refine ⟨by omega, by omega, ?_⟩
    rw [pow_two, pow_two, pow_two]
    exact hcond
  · rintro ⟨hi, hj, hdist⟩
    rw [pow_two, pow_two, pow_two] at hdist
    have hdx := abs_bounds_of_sq hr0
      (show ((i : Int) - cx) * ((i : Int) - cx) ≤ r * r by
        linarith [mul_self_nonneg ((j : Int) - cy)])
    have hdy := abs_bounds_of_sq hr0
      (show ((j : Int) - cy) * ((j : Int) - cy) ≤ r * r by
        linarith [mul_self_nonneg ((i : Int) - cx)])
    have hdxb : ((i : Int) - cx) * ((i : Int) - cx) ≤ ((w : Int) - 1) * ((w : Int) - 1) :=
      sq_le_sq_of_abs (by omega) (by omega)
    have hdyb : ((j : Int) - cy) * ((j : Int) - cy) ≤ ((h : Int) - 1) * ((h : Int) - 1) :=
      sq_le_sq_of_abs (by omega) (by omega)
    have c1 : -2147483648 ≤ (i : Int) - cx := by omega
    have c2 : (i : Int) - cx < 2147483648 := by omega
    have c3 : -2147483648 ≤ (j : Int) - cy := by omega
    have c4 : (j : Int) - cy < 2147483648 := by omega
    have c5 : -2147483648 ≤ ((i : Int) - cx) * ((i : Int) - cx) := by
      linarith [mul_self_nonneg ((i : Int) - cx)]
    have c6 : ((i : Int) - cx) * ((i : Int) - cx) < 2147483648 := by linarith
    have c7 : -2147483648 ≤ ((j : Int) - cy) * ((j : Int) - cy) := by
      linarith [mul_self_nonneg ((j : Int) - cy)]
    have c8 : ((j : Int) - cy) * ((j : Int) - cy) < 2147483648 := by linarith
    have c9 : -2147483648 ≤ ((i : Int) - cx) * ((i : Int) - cx) +
        ((j : Int) - cy) * ((j : Int) - cy) := by
      linarith [mul_self_nonneg ((i : Int) - cx), mul_self_nonneg ((j : Int) - cy)]
    have c10 : ((i : Int) - cx) * ((i : Int) - cx) +
        ((j : Int) - cy) * ((j : Int) - cy) < 2147483648 := by linarith
    refine ⟨(i : Int), ?_, (j : Int), ?_, ?_, ?_, ?_⟩
    · rw [mem_intRange]
      exact ⟨max_le (by omega) (by omega), le_min (by omega) (by omega)⟩
    · rw [mem_intRange]
      exact ⟨max_le (by omega) (by omega), le_min (by omega) (by omega)⟩
    · unfold circleCond
      rw [wrap32_id c1 c2, wrap32_id c3 c4, wrap32_id c5 c6, wrap32_id c7 c8,
        wrap32_id c9 c10, wrr]
      exact hdist
    · rw [toU32_coe (by omega)]
    · rw [toU32_coe (by omega)]

/-- C2 (amended): for radius `r ≥ 0` with `r² ≤ i32::MAX`, canvas
dimensions whose squared diagonal fits in `i32`, and a center inside
canvas bounds, the Circle-shape stamp sets a pixel `(x, y)` to the
stamp color iff `(x, y)` is within canvas bounds and
`(x-cx)² + (y-cy)² ≤ r²` (closed integer disc), and no other pixel
changes. -/
theorem C2_circle_stamp (c : Canvas) (cx cy r : Int) (col : Rgba)
    (hw0 : 0 < c.width) (hh0 : 0 < c.height)
    (hwh : ((c.width : Int) - 1) ^ 2 + ((c.height : Int) - 1) ^ 2 ≤ 2147483647)
    (hcx0 : 0 ≤ cx) (hcx1 : cx < (c.width : Int))
    (hcy0 : 0 ≤ cy) (hcy1 : cy < (c.height : Int))
    (hr0 : 0 ≤ r) (hr1 : r * r ≤ 2147483647) :
    (∀ i j : Nat, i < c.width → j < c.height →
      (drawCircle c cx cy r col).pix i j =
        if ((i : Int) - cx) ^ 2 + ((j : Int) - cy) ^ 2 ≤ r ^ 2 then col else c.pix i j) ∧
    (∀ i j : Nat, c.width ≤ i ∨ c.height ≤ j →
      (drawCircle c cx cy r col).pix i j = c.pix i j) := by
  have hchar := fun i j => circleWrite_char c.width c.height cx cy r i j
    hw0 hh0 hwh hcx0 hcx1 hcy0 hcy1 hr0 hr1
  constructor
  · intro i j hi hj
    rw [drawCircle_pix]
    by_cases hd : ((i : Int) - cx) ^ 2 + ((j : Int) - cy) ^ 2 ≤ r ^ 2
    · rw [if_pos hd, if_pos ((hchar i j).mpr ⟨hi, hj, hd⟩)]
    · rw [if_neg hd, if_neg]
      intro hcw
      exact hd ((hchar i j).mp hcw).2.2
  · intro i j hij
    rw [drawCircle_pix, if_neg]
    intro hcw
    have hin := (hchar i j).mp hcw
    omega

/-- C2 witness: a radius-1 Circle stamp at center `(2,2)` of a white
5×5 canvas paints pixel `(2,1)` (distance 1) black. -/
theorem C2_circle_stamp_witness :
    (drawCircle (whiteCanvas 5 5) 2 2 1 (0, 0, 0, 255)).pix 2 1 = (0, 0, 0, 255) := by
  have h := (C2_circle_stamp (whiteCanvas 5 5) 2 2 1 (0, 0, 0, 255)
    (by norm_num [whiteCanvas]) (by norm_num [whiteCanvas]) (by norm_num [whiteCanvas])
    (by norm_num) (by norm_num [whiteCanvas]) (by norm_num) (by norm_num [whiteCanvas])
    (by norm_num) (by norm_num)).1 2 1
    (by norm_num [whiteCanvas]) (by norm_num [whiteCanvas])
  rw [h, if_pos]
  norm_num

/-- C2 counterexample to the claim as stated: at radius `r = 46341`
(reachable via the brush-size input) with the in-bounds center `(0,0)`
of a white 1×1 canvas, pixel `(0,0)` is at squared distance `0 ≤ r²`,
yet the stamp leaves it white: `radius * radius` overflows `i32`
(debug builds panic; release builds wrap to a negative bound that no
pixel satisfies). -/
theorem C2_circle_stamp_counterexample :
    (0 : Int) ≤ 46341 ∧
    (((0 : Nat) : Int) - 0) ^ 2 + (((0 : Nat) : Int) - 0) ^ 2 ≤ 46341 ^ 2 ∧
    (drawCircle (whiteCanvas 1 1) 0 0 46341 (0, 0, 0, 255)).pix 0 0 ≠ (0, 0, 0, 255) := by
  refine ⟨by norm_num, by norm_num, ?_⟩
  decide

/-- C3 (bug evidence): at a center fully right of the canvas
(`x_center = 810`, radius 5, canvas width 800) the Square branch
computes `x_min = 805 > x_max = 800`, and the `u32` brush width
`x_max - x_min` underflows to `4294967291` — vastly larger than the
whole 800×600 canvas — so `RgbaImage::from_pixel` is asked for a
≈4.3-billion-pixel-wide brush instead of the no-op the bounds
intersection should produce (debug builds panic on the subtraction;
release builds abort on the allocation). -/
theorem C3_square_width_underflow :
    squareXminU 810 5 = 805 ∧ squareXmaxU 800 810 5 = 800 ∧
    squareBrushW 800 810 5 = 4294967291 ∧ 800 * 600 < squareBrushW 800 810 5 := by
  decide

/-- C4 (amended): on the program's 800×600 canvas, for a center inside
canvas bounds and a radius with `radius * 2` within `i32` range, the
dirty rectangle equals `(cx-r, cy-r, 2r, 2r)` in canvas units (the
forward and inverse per-axis scale factors `800/w = 1`, `600/h = 1`
cancel exactly), and every pixel changed by either brush shape lies
in the closed rectangle `[cx-r, cx+r] × [cy-r, cy+r]` it spans. -/
theorem C4_dirty_rect (c : Canvas) (cx cy r : Int) (col : Rgba)
    (hw : c.width = 800) (hh : c.height = 600)
    (hcx0 : 0 ≤ cx) (hcx1 : cx < 800) (hcy0 : 0 ≤ cy) (hcy1 : cy < 600)
    (hr0 : 0 ≤ r) (hr1 : r * 2 < 2147483648) :
    dirtyRect c.width c.height cx cy r = (cx - r, cy - r, r * 2, r * 2) ∧
    (∀ i j : Nat, (drawSquare c cx cy r col).pix i j ≠ c.pix i j →
      cx - r ≤ (i : Int) ∧ (i : Int) ≤ (cx - r) + r * 2 ∧
      cy - r ≤ (j : Int) ∧ (j : Int) ≤ (cy - r) + r * 2) ∧
    (∀ i j : Nat, (drawCircle c cx cy r col).pix i j ≠ c.pix i j →
      cx - r ≤ (i : Int) ∧ (i : Int) ≤ (cx - r) + r * 2 ∧
      cy - r ≤ (j : Int) ∧ (j : Int) ≤ (cy - r) + r * 2) := by
  refine ⟨?_, ?_, ?_⟩
  · rw [hw, hh]
    unfold dirtyRect
    rw [wrap32_id (by omega) (by omega), wrap32_id (by omega) (by omega),
      wrap32_id (by omega) (by omega)]
    have hc800 : ((800 : Nat) : Int) = 800 := by norm_num
    have hc600 : ((600 : Nat) : Int) = 600 := by norm_num
    rw [hc800, hc600]
    rw [Int.mul_ediv_cancel _ (by norm_num : (800 : Int) ≠ 0),
      Int.mul_ediv_cancel _ (by norm_num : (600 : Int) ≠ 0),
      Int.mul_ediv_cancel _ (by norm_num : (800 : Int) ≠ 0),
      Int.mul_ediv_cancel _ (by norm_num : (600 : Int) ≠ 0)]
  · intro i j hne
    have hsw : sqWrite c.width c.height cx cy r i j := by
      by_contra hn
      rw [drawSquare_pix, if_neg hn] at hne
      exact hne rfl
    obtain ⟨ha, hb⟩ := (sqWrite_iff _ _ _ _ _ _ _).mp hsw
    have hx := (square_axis c.width cx r (by omega) (by rw [hw]; norm_num)
      hcx0 (by rw [hw]; exact_mod_cast hcx1) hr0 (by omega) i).mp ha
    have hy := (square_axis c.height cy r (by omega) (by rw [hh]; norm_num)
      hcy0 (by rw [hh]; exact_mod_cast hcy1) hr0 (by omega) j).mp hb
    omega
  · intro i j hne
    have hcw : circleWrite c.width c.height cx cy r i j := by
      by_contra hn
      rw [drawCircle_pix, if_neg hn] at hne
      exact hne rfl
    obtain ⟨x, hxmem, y, hymem, hcond, hi, hj⟩ :=
      (circleWrite_iff _ _ _ _ _ _ _).mp hcw
    rw [mem_intRange] at hxmem hymem
    rw [wrap32_id (by omega) (by omega), wrap32_id (by omega) (by omega)] at hxmem
    rw [wrap32_id (by omega) (by omega), wrap32_id (by omega) (by omega)] at hymem
    have hx0 : 0 ≤ x := le_trans (le_max_right _ _) hxmem.1
    have hy0 : 0 ≤ y := le_trans (le_max_right _ _) hymem.1
    have hx1 : cx - r ≤ x := le_trans (le_max_left _ _) hxmem.1
    have hy1 : cy - r ≤ y := le_trans (le_max_left _ _) hymem.1
    have hx2 : x ≤ cx + r := le_trans hxmem.2 (min_le_left _ _)
    have hy2 : y ≤ cy + r := le_trans hymem.2 (min_le_left _ _)
    subst hi
    subst hj
    rw [toU32_of_nonneg hx0 (by omega), toU32_of_nonneg hy0 (by omega)]
    rw [Int.toNat_of_nonneg hx0, Int.toNat_of_nonneg hy0]
    omega

/-- C4 witness: the stamp at center `(100,100)` with radius 5 on the
800×600 canvas reports the dirty rectangle `(95, 95, 10, 10)`. -/
theorem C4_dirty_rect_witness :
    dirtyRect (whiteCanvas 800 600).width (whiteCanvas 800 600).height 100 100 5 =
      (95, 95, 10, 10) := by
  have h := (C4_dirty_rect (whiteCanvas 800 600) 100 100 5 (0, 0, 0, 255)
    rfl rfl (by norm_num) (by norm_num) (by norm_num) (by norm_num)
    (by norm_num) (by norm_num)).1
  rw [h]
  norm_num

/-- C4 counterexample to the claim as stated: at radius `2^30`
(reachable via the brush-size input) and in-bounds center `(0,0)`, the
Square stamp paints pixel `(0,0)`, but `radius * 2` overflows `i32` to
`-2^31`, so the dirty rectangle has origin `-2^30` and width `-2^31`
and does not contain the stamped pixel. -/
theorem C4_dirty_rect_counterexample :
    (drawSquare (whiteCanvas 800 600) 0 0 1073741824 (0, 0, 0, 255)).pix 0 0 ≠
      (whiteCanvas 800 600).pix 0 0 ∧
    ¬ ((dirtyRect 800 600 0 0 1073741824).1 ≤ (0 : Int) ∧
       (0 : Int) ≤ (dirtyRect 800 600 0 0 1073741824).1 +
        (dirtyRect 800 600 0 0 1073741824).2.2.1) := by
  constructor
  · decide
  · decide

/-- C5: `set_background_color` stores the color in the
background-color field and immediately repaints every canvas pixel
with it, whatever the prior content. -/
theorem C5_set_background (st : AppState) (col : Rgba) :
    (set_background_color st col).background_color = col ∧
    (∀ i j : Nat, i < st.image.width → j < st.image.height →
      (set_background_color st col).image.pix i j = col) := by
  refine ⟨rfl, ?_⟩
  intro i j hi hj
  show (if i < st.image.width ∧ j < st.image.height then col else st.image.pix i j) = col
  rw [if_pos (show i < st.image.width ∧ j < st.image.height from ⟨hi, hj⟩)]

/-- C5 witness: setting the background to gray on the initial state
paints pixel `(3,4)` gray and stores gray in the field. -/
theorem C5_set_background_witness :
    (set_background_color initialState (128, 128, 128, 255)).background_color =
      (128, 128, 128, 255) ∧
    (set_background_color initialState (128, 128, 128, 255)).image.pix 3 4 =
      (128, 128, 128, 255) := by
  refine ⟨(C5_set_background initialState (128, 128, 128, 255)).1,
    (C5_set_background initialState (128, 128, 128, 255)).2 3 4 (by decide) (by decide)⟩

/-- C9: `clear_canvas` sets every canvas pixel to opaque white,
independently of the configured background color and prior content. -/
theorem C9_clear_canvas_white (st : AppState) :
    ∀ i j : Nat, i < st.image.width → j < st.image.height →
      (clear_canvas st).image.pix i j = (255, 255, 255, 255) := by
  intro i j hi hj
  show (if i < st.image.width ∧ j < st.image.height
    then ((255, 255, 255, 255) : Rgba) else st.image.pix i j) = (255, 255, 255, 255)
  rw [if_pos (show i < st.image.width ∧ j < st.image.height from ⟨hi, hj⟩)]

/-- C9 witness: clearing a state whose background is gray still paints
pixel `(7,9)` white. -/
theorem C9_clear_canvas_white_witness :
    (clear_canvas { initialState with
      background_color := (128, 128, 128, 255) }).image.pix 7 9 = (255, 255, 255, 255) :=
  C9_clear_canvas_white { initialState with background_color := (128, 128, 128, 255) }
    7 9 (by decide) (by decide)

/-- C7: committing the brush-size input sets the radius to `n` when the
text parses as a `u32` value `n > 0`, and leaves the whole state
unchanged (no error) when parsing fails or yields `0`. -/
theorem C7_commit_brush_size (st : AppState) :
    (∀ n : Nat, parseU32 st.brush_size_input = some n → 0 < n →
      (commitBrushSizeInput st).brush_size = n) ∧
    ((parseU32 st.brush_size_input = none ∨ parseU32 st.brush_size_input = some 0) →
      commitBrushSizeInput st = st) := by
  constructor
  · intro n hp hn
    unfold commitBrushSizeInput
    rw [hp]
    dsimp only
    rw [if_pos hn]
  · intro hcase
    unfold commitBrushSizeInput
    rcases hcase with hp | hp
    · rw [hp]
    · rw [hp]
      dsimp only
      rw [if_neg (lt_irrefl 0)]

/-- C7 witness: `"12"` sets the radius to 12; `"0"` and `"abc"` leave
the state unchanged. -/
theorem C7_commit_brush_size_witness :
    (commitBrushSizeInput { initialState with brush_size_input := "12" }).brush_size = 12 ∧
    commitBrushSizeInput { initialState with brush_size_input := "0" } =
      { initialState with brush_size_input := "0" } ∧
    commitBrushSizeInput { initialState with brush_size_input := "abc" } =
      { initialState with brush_size_input := "abc" } := by
  refine ⟨(C7_commit_brush_size _).1 12 (by decide) (by decide),
    (C7_commit_brush_size _).2 (Or.inr (by decide)),
    (C7_commit_brush_size _).2 (Or.inl (by decide))⟩

/-- C8: committing the color inputs parses the three channel strings
independently, substituting `0` for an unparsable or out-of-range
channel, and composes the brush color fully opaque — stated against
`specChannelValue`, the claim-side channel semantics. -/
theorem C8_commit_color (st : AppState) :
    (update_brush_color st).brush_color =
      (specChannelValue st.color_r_input, specChannelValue st.color_g_input,
       specChannelValue st.color_b_input, 255) := by
  have key : ∀ s : String, min (max ((parseU8 s).getD 0) 0) 255 = specChannelValue s := by
    intro s
    unfold parseU8 parseUnsigned specChannelValue
    cases hd : decodeDec s
    · simp
    · rename_i n
      dsimp only
      by_cases hn : n < 256
      · rw [if_pos hn, if_pos (by omega : n ≤ 255)]
        simp
        omega
      · rw [if_neg hn, if_neg (by omega : ¬ n ≤ 255)]
        simp
  rw [update_brush_color]
  show (min (max ((parseU8 st.color_r_input).getD 0) 0) 255,
        min (max ((parseU8 st.color_g_input).getD 0) 0) 255,
        min (max ((parseU8 st.color_b_input).getD 0) 0) 255, 255) = _
  rw [key st.color_r_input, key st.color_g_input, key st.color_b_input]

/-- C6 (amended): stamping with the Brush tool over a pixel in the
stamp footprint and then, after switching the tool to Eraser, stamping
the same center again leaves that pixel equal to the configured
background color, because an Eraser stamp writes the background color —
provided both stamps complete without the Square-branch brush-allocation
panic (`draw_on_canvas_checked` returns a state).  Without that proviso
the claim is false: see `C6_brush_then_eraser_counterexample`, where the
Brush stamp itself panics in `RgbaImage::from_pixel` and the round trip
never happens. -/
theorem C6_brush_then_eraser (st : AppState) (cx cy : Int) (i j : Nat)
    (hcov : stampFootprint st cx cy i j)
    (hi : i < st.image.width) (hj : j < st.image.height)
    (s1 s2 : AppState)
    (h1 : draw_on_canvas_checked (selectTool st Tool.Brush) cx cy = some s1)
    (h2 : draw_on_canvas_checked (selectTool s1 Tool.Eraser) cx cy = some s2) :
    s2.image.pix i j = st.background_color := by
  have e1 := draw_checked_some (selectTool st Tool.Brush) cx cy s1 h1
  subst e1
  have e2 := draw_checked_some
    (selectTool (draw_on_canvas (selectTool st Tool.Brush) cx cy) Tool.Eraser) cx cy s2 h2
  subst e2
  have hfr := draw_on_canvas_frame (selectTool st Tool.Brush) cx cy
  have hcov2 : stampFootprint
      (selectTool (draw_on_canvas (selectTool st Tool.Brush) cx cy) Tool.Eraser)
      cx cy i j := by
    unfold stampFootprint at hcov ⊢
    show shapeWrite (draw_on_canvas (selectTool st Tool.Brush) cx cy).brush_shape
      (draw_on_canvas (selectTool st Tool.Brush) cx cy).image.width
      (draw_on_canvas (selectTool st Tool.Brush) cx cy).image.height cx cy
      (toI32 (draw_on_canvas (selectTool st Tool.Brush) cx cy).brush_size) i j
    rw [hfr.2.2.2.2.1, hfr.2.2.2.2.2.2.1, hfr.2.2.2.2.2.2.2, hfr.2.2.1]
    exact hcov
  have hw := draw_writes
    (selectTool (draw_on_canvas (selectTool st Tool.Brush) cx cy) Tool.Eraser) cx cy i j hcov2
  rw [hw]
  show (draw_on_canvas (selectTool st Tool.Brush) cx cy).background_color = _
  rw [hfr.2.2.2.2.2.1]
  rfl

/-- C6 witness: on the initial state with a gray background (radius 5),
both checked stamps succeed, and a Brush stamp at `(100,100)` followed
by an Eraser stamp at the same center leaves pixel `(100,100)` gray. -/
theorem C6_brush_then_eraser_witness :
    (draw_on_canvas
      (selectTool
        (draw_on_canvas
          (selectTool { initialState with background_color := (128, 128, 128, 255) }
            Tool.Brush) 100 100)
        Tool.Eraser) 100 100).image.pix 100 100 = (128, 128, 128, 255) :=
  C6_brush_then_eraser { initialState with background_color := (128, 128, 128, 255) }
    100 100 100 100 (by decide) (by decide) (by decide)
    (draw_on_canvas
      (selectTool { initialState with background_color := (128, 128, 128, 255) }
        Tool.Brush) 100 100)
    (draw_on_canvas
      (selectTool
        (draw_on_canvas
          (selectTool { initialState with background_color := (128, 128, 128, 255) }
            Tool.Brush) 100 100)
        Tool.Eraser) 100 100)
    rfl rfl

/-- C6 counterexample to the claim as stated: with the Square shape and
brush size `2147483647` (accepted by the size input), the center pixel
`(100,100)` is in the stamp footprint, yet the Brush stamp itself
panics in `RgbaImage::from_pixel` (brush buffer
`2147483748 × 2147483748`, length over the allocation limit), so the
Brush-then-Eraser round trip never completes and no pixel is written. -/
theorem C6_brush_then_eraser_counterexample :
    stampFootprint { initialState with
      background_color := (128, 128, 128, 255), brush_size := 2147483647 } 100 100 100 100 ∧
    draw_on_canvas_checked
      (selectTool { initialState with
        background_color := (128, 128, 128, 255), brush_size := 2147483647 } Tool.Brush)
      100 100 = none := by
  constructor
  · decide
  · exact draw_checked_none _ 100 100 rfl (by decide)

/-- C10 (amended): `clear_canvas` mutates only the pixel buffer —
background color, brush color, tool, shape, radius, drawing flag, and
the pending input strings are unchanged — and an Eraser stamp performed
after it that completes without the Square-branch brush-allocation
panic still paints the previously configured background color.  Without
that proviso the final conjunct is false: see
`C10_clear_canvas_frame_counterexample`, where the post-clear Eraser
stamp panics in `RgbaImage::from_pixel` instead of painting. -/
theorem C10_clear_canvas_frame (st : AppState) (cx cy : Int) (i j : Nat)
    (hcov : stampFootprint st cx cy i j) :
    (clear_canvas st).background_color = st.background_color ∧
    (clear_canvas st).brush_color = st.brush_color ∧
    (clear_canvas st).current_tool = st.current_tool ∧
    (clear_canvas st).brush_shape = st.brush_shape ∧
    (clear_canvas st).brush_size = st.brush_size ∧
    (clear_canvas st).is_drawing = st.is_drawing ∧
    (clear_canvas st).brush_size_input = st.brush_size_input ∧
    (clear_canvas st).color_r_input = st.color_r_input ∧
    (clear_canvas st).color_g_input = st.color_g_input ∧
    (clear_canvas st).color_b_input = st.color_b_input ∧
    (∀ s2 : AppState,
      draw_on_canvas_checked (selectTool (clear_canvas st) Tool.Eraser) cx cy = some s2 →
      s2.image.pix i j = st.background_color) := by
  refine ⟨rfl, rfl, rfl, rfl, rfl, rfl, rfl, rfl, rfl, rfl, ?_⟩
  intro s2 h2
  have e2 := draw_checked_some (selectTool (clear_canvas st) Tool.Eraser) cx cy s2 h2
  subst e2
  have hcov2 : stampFootprint (selectTool (clear_canvas st) Tool.Eraser) cx cy i j := by
    unfold stampFootprint at hcov ⊢
    dsimp only [selectTool, clear_canvas, fillCanvas]
    exact hcov
  have hw := draw_writes (selectTool (clear_canvas st) Tool.Eraser) cx cy i j hcov2
  rw [hw]
  rfl

/-- C10 witness: after clearing a gray-background state (radius 5), the
checked Eraser stamp at `(100,100)` succeeds and paints pixel
`(100,100)` gray (the preserved background), not white. -/
theorem C10_clear_canvas_frame_witness :
    (draw_on_canvas
      (selectTool (clear_canvas { initialState with
        background_color := (128, 128, 128, 255) }) Tool.Eraser) 100 100).image.pix 100 100 =
      (128, 128, 128, 255) :=
  (C10_clear_canvas_frame { initialState with background_color := (128, 128, 128, 255) }
    100 100 100 100 (by decide)).2.2.2.2.2.2.2.2.2.2
    (draw_on_canvas
      (selectTool (clear_canvas { initialState with
        background_color := (128, 128, 128, 255) }) Tool.Eraser) 100 100)
    rfl

/-- C10 counterexample to the final conjunct of the claim as stated:
with the Square shape and brush size `2147483647`, pixel `(200,200)` is
in the stamp footprint, yet the Eraser stamp performed after clearing
the canvas panics in `RgbaImage::from_pixel` (brush buffer
`2147483848 × 2147483848`, length over the allocation limit), so it
paints nothing — in particular not the background color. -/
theorem C10_clear_canvas_frame_counterexample :
    stampFootprint { initialState with
      background_color := (128, 128, 128, 255), brush_size := 2147483647 } 200 200 200 200 ∧
    draw_on_canvas_checked
      (selectTool (clear_canvas { initialState with
        background_color := (128, 128, 128, 255), brush_size := 2147483647 }) Tool.Eraser)
      200 200 = none := by
  constructor
  · decide
  · exact draw_checked_none _ 200 200 rfl (by decide)
